import Mathlib

set_option maxRecDepth 8192

/-!
Verification of the channel metadata core of `gwpy/detector/channel.py`:
the channel-name parser, the `Channel` record with its validating setters,
`ChannelList` construction/filtering, the NDS2 batch query logic and the
availability-resolver output parser.

Python strings are modelled as Lean `String`s (lists of characters);
machine integers are `Int`/`Nat`; code that can raise returns `Except PyErr`.
Sample-rate magnitudes are modelled as natural numbers (the rates occurring
in the source are integral numbers of Hertz); `astropy` units and `numpy`
dtypes are opaque validated strings, following the specification's data
model ("unit and dtype are treated as opaque validated value types").
-/

/-- Python exception values raised by the embedded code. -/
inductive PyErr where
  | typeError (msg : String)
  | attributeError (msg : String)
  | indexError
  | valueError (msg : String)
  | runtimeError (msg : String)
  | calledProcessError (retcode : Int)
  deriving Repr, DecidableEq

/- ------------------------------------------------------------------ -/
/- String helpers: Python `split`, `rsplit`, `strip`, substring search -/
/- ------------------------------------------------------------------ -/

/-- Split a character list at the first occurrence of `sep`:
`some (before, after)` with the separator removed, or `none` when `sep`
does not occur.  This is Python's `s.split(sep, 1)`. -/
def splitFirst (sep : Char) : List Char → Option (List Char × List Char)
  | [] => none
  | c :: rest =>
    if c = sep then some ([], rest)
    else
      match splitFirst sep rest with
      | some (a, b) => some (c :: a, b)
      | none => none

/-- Split a character list at the last occurrence of `sep`
(Python's `s.rsplit(sep, 1)`). -/
def splitLast (sep : Char) : List Char → Option (List Char × List Char)
  | [] => none
  | c :: rest =>
    match splitLast sep rest with
    | some (a, b) => some (c :: a, b)
    | none => if c = sep then some ([], rest) else none

/-- Split a character list at the first character satisfying `p`
(one step of `re.split` on a character class). -/
def splitFirstPred (p : Char → Bool) : List Char → Option (List Char × List Char)
  | [] => none
  | c :: rest =>
    if p c then some ([], rest)
    else
      match splitFirstPred p rest with
      | some (a, b) => some (c :: a, b)
      | none => none

/-- Structural characterisation of `splitFirst`: the input is the two
pieces glued back with the separator, and the first piece is
separator-free. -/
theorem splitFirst_eq (sep : Char) :
    ∀ (cs a b : List Char), splitFirst sep cs = some (a, b) →
      cs = a ++ sep :: b ∧ sep ∉ a := by
  intro cs
  induction cs with
  | nil => intro a b h; simp [splitFirst] at h
  | cons c rest ih =>
    intro a b h
    by_cases hc : c = sep
    · simp [splitFirst, hc] at h
      obtain ⟨ha, hb⟩ := h
      subst ha; subst hb; subst hc
      simp
    · simp [splitFirst, hc] at h
      match hrec : splitFirst sep rest with
      | none => rw [hrec] at h; simp at h
      | some (a', b') =>
        rw [hrec] at h
        simp at h
        obtain ⟨ha, hb⟩ := h
        obtain ⟨h1, h2⟩ := ih a' b' hrec
        subst hb
        constructor
        · rw [← ha]; simp [h1]
        · rw [← ha]
          intro hmem
          rcases List.mem_cons.mp hmem with h | h
          · exact hc h.symm
          · exact h2 h

theorem splitFirst_length (sep : Char) (cs a b : List Char)
    (h : splitFirst sep cs = some (a, b)) :
    cs.length = a.length + b.length + 1 := by
  have := (splitFirst_eq sep cs a b h).1
  subst this
  simp
  omega

theorem splitFirst_length_lt (sep : Char) (cs a b : List Char)
    (h : splitFirst sep cs = some (a, b)) : b.length < cs.length := by
  have := splitFirst_length sep cs a b h
  omega

theorem splitLast_eq (sep : Char) :
    ∀ (cs a b : List Char), splitLast sep cs = some (a, b) →
      cs = a ++ sep :: b := by
  intro cs
  induction cs with
  | nil => intro a b h; simp [splitLast] at h
  | cons c rest ih =>
    intro a b h
    simp only [splitLast] at h
    match hrec : splitLast sep rest with
    | some (a', b') =>
      rw [hrec] at h
      simp at h
      obtain ⟨ha, hb⟩ := h
      subst hb
      rw [← ha]
      simp [ih a' b' hrec]
    | none =>
      rw [hrec] at h
      by_cases hc : c = sep
      · simp [hc] at h
        obtain ⟨ha, hb⟩ := h
        subst ha; subst hb; subst hc; simp
      · simp [hc] at h

/-- Python `s.split(sep)` with an explicit separator: splits at every
occurrence, keeping empty fields. -/
def splitAllChar (sep : Char) (cs : List Char) : List (List Char) :=
  match h : splitFirst sep cs with
  | none => [cs]
  | some (a, r) => a :: splitAllChar sep r
termination_by cs.length
decreasing_by
  exact splitFirst_length_lt sep cs a r h

/-- Substring containment of `needle` in `hay`
(Python's `needle in hay` for strings). -/
def containsSub (hay needle : List Char) : Bool :=
  match hay with
  | [] => needle.isEmpty
  | _ :: rest => needle.isPrefixOf hay || containsSub rest needle

/-- `needle in hay` on `String`s. -/
def pyContains (hay needle : String) : Bool :=
  containsSub hay.data needle.data

/-- Python `s.strip(chars)`: remove leading and trailing characters
satisfying `p`. -/
def pyStripChars (p : Char → Bool) (s : String) : String :=
  ⟨((s.data.dropWhile p).reverse.dropWhile p).reverse⟩

/-- `s.lower()` (ASCII case mapping, as Python 2 `str.lower`). -/
def pyLower (s : String) : String := ⟨s.data.map Char.toLower⟩

/-- `s.startswith(pre)`. -/
def pyStartsWith (s pre : String) : Bool := pre.data.isPrefixOf s.data

/-- `s.endswith(post)`. -/
def pyEndsWith (s post : String) : Bool := post.data.isSuffixOf s.data

/- ------------------------------------------------------------------ -/
/- The NDS2 channel-type alias table                                   -/
/- ------------------------------------------------------------------ -/

/-- Modelled from the spec: `NDS2_CHANNEL_TYPE` lives in `gwpy/io/nds.py`
(not among the provided sources).  Per the specification, `ChannelType` is
the closed enumeration of storage types, "each bound to an external numeric
code"; the codes are the NDS2 channel-type bit flags.  The source iterates
over the dictionary's keys in an unspecified order; this embedding fixes
the listing order below (every claim proved here is insensitive to it). -/
def NDS2_CHANNEL_TYPE : List (String × Int) :=
  [("m-trend", 16), ("online", 1), ("raw", 2), ("reduced", 4),
   ("s-trend", 8), ("static", 32), ("test-pt", 64)]

/-- Modelled from the spec: the reverse table `NDS2_CHANNEL_TYPESTR` maps
each external numeric code back to its canonical storage-type string.
Its keys are integers, so a Python string is never a member of it. -/
def NDS2_CHANNEL_TYPESTR : List (Int × String) :=
  [(16, "m-trend"), (1, "online"), (2, "raw"), (4, "reduced"),
   (8, "s-trend"), (32, "static"), (64, "test-pt")]

/-- The alias strings, in the fixed iteration order. -/
def typeAliases : List String := NDS2_CHANNEL_TYPE.map (·.1)

/- ------------------------------------------------------------------ -/
/- parse_channel_name                                                  -/
/- ------------------------------------------------------------------ -/

/-- `[-_]`, the character class of `_re_cchar`. -/
def cchar (c : Char) : Bool := c = '-' || c = '_'

/-- `parse_channel_name`: decompose a channel name into
`(ifo, system, subsystem, signal)`.  The source first matches the
anchored pattern `[A-Z]\d:` and, on success, splits at the first `':'`;
since the first two characters of a successful match are an upper-case
letter and a digit, that first `':'` is exactly the third character, so
both steps are fused here.  The remainder is split on the first two
occurrences of `-` or `_`. -/
def parse_channel_name (name : String) : Option String × Option String × Option String × Option String :=
  if name = "" then (none, none, none, none)
  else
    let (ifo, rest) :=
      match name.data with
      | a :: b :: c :: tl =>
        if a.isUpper && b.isDigit && c = ':' then
          (some (String.mk [a, b]), String.mk tl)
        else (none, name)
      | _ => (none, name)
    match splitFirstPred cchar rest.data with
    | none => (ifo, some rest, none, none)
    | some (sys, r1) =>
      match splitFirstPred cchar r1 with
      | none => (ifo, some (String.mk sys), some (String.mk r1), none)
      | some (sub, sig) =>
        (ifo, some (String.mk sys), some (String.mk sub), some (String.mk sig))

/- ------------------------------------------------------------------ -/
/- Channel: validating setters and construction                        -/
/- ------------------------------------------------------------------ -/

/-- A Python value passed as the `type` argument: either a string alias
or an NDS2 integer code. -/
inductive PyTy where
  | str (s : String)
  | int (n : Int)
  deriving Repr, DecidableEq

/-- The `Channel.type` setter on a non-`None` value.  A string is first
tested for membership in `NDS2_CHANNEL_TYPESTR` — whose keys are
integers, so that test never succeeds for a string — then its lowercase
form is looked up among the aliases; failure raises `ValueError`.
An integer is looked up in `NDS2_CHANNEL_TYPESTR`; an unknown integer
falls through to `type_.lower()`, which raises `AttributeError` on an
`int`. -/
def set_type_str (s : String) : Except PyErr (Option String) :=
  if typeAliases.contains (pyLower s) then .ok (some (pyLower s))
  else .error (.valueError ("Channel type '" ++ s ++ "' not understood."))

def set_type_int (n : Int) : Except PyErr (Option String) :=
  match NDS2_CHANNEL_TYPESTR.lookup n with
  | some t => .ok (some t)
  | none => .error (.attributeError "'int' object has no attribute 'lower'")

def set_type : PyTy → Except PyErr (Option String)
  | .str s => set_type_str s
  | .int n => set_type_int n

/-- The `Channel.name` setter.  `str(n).rsplit(',', 1)` is unpacked into
`(_name, type)`; with no comma the unpacking raises `ValueError`, caught
to set `_name` to the whole string; when the trailing segment fails
type validation, that `ValueError` is also caught, leaving `_name` equal
to the whole string and the previously stored type unchanged.
Returns the new `_name` together with the (possibly updated) `_type`. -/
def set_name_tail (n : String) (curType : Option String) (a b : List Char) :
    String × Option String :=
  match set_type (.str (String.mk b)) with
  | .ok t => (String.mk a, t)
  | .error _ => (n, curType)

def set_name (n : String) (curType : Option String) : String × Option String :=
  match splitLast ',' n.data with
  | none => (n, curType)
  | some (a, b) => set_name_tail n curType a b

/-- The `Channel.model` setter: `mdl and mdl.lower() or mdl` lowercases a
truthy (non-empty) string and passes falsy values through. -/
def set_model : Option String → Option String
  | none => none
  | some s => if s = "" then some "" else some (pyLower s)

/-- The channel metadata record.  `ifo`/`system`/`subsystem`/`signal` are
the parser's output for `name`, recomputed by the `name` setter. -/
structure Channel where
  name : String
  sample_rate : Option Nat
  unit : Option String
  dtype : Option String
  type : Option String
  model : Option String
  url : Option String
  ifo : Option String
  system : Option String
  subsystem : Option String
  signal : Option String
  deriving Repr, DecidableEq

/-- Build a `Channel` from a bare name string with every optional field
unset (`Channel(name)`); this path of the constructor cannot raise. -/
def Channel.fromName (s : String) : Channel :=
  let (nm, ty) := set_name s none
  let (ifo, sys, sub, sig) := parse_channel_name nm
  { name := nm, sample_rate := none, unit := none, dtype := none,
    type := ty, model := none, url := none,
    ifo := ifo, system := sys, subsystem := sub, signal := sig }

/-- Python truthiness of an optional numeric value (`None` and `0` are
falsy). -/
def truthyN : Option Nat → Bool
  | none => false
  | some n => n != 0

/-- Python truthiness of an optional string (`None` and `""` are falsy). -/
def truthyS : Option String → Bool
  | none => false
  | some s => s != ""

/-- Python truthiness of an optional `type` argument value. -/
def truthyT : Option PyTy → Bool
  | none => false
  | some (.str s) => s != ""
  | some (.int n) => n != 0

/-- Python's `a or b` on these optional values. -/
def pyOrN (a b : Option Nat) : Option Nat := if truthyN a then a else b

def pyOrS (a b : Option String) : Option String := if truthyS a then a else b

def pyOrT (a b : Option PyTy) : Option PyTy := if truthyT a then a else b

/-- The first positional argument of `Channel.__init__`: a name string or
another `Channel` (copy-merge construction). -/
inductive ChannelArg where
  | str (s : String)
  | chan (c : Channel)

/-- `Channel.__init__`.  Given a base `Channel`, every argument is merged
with the base's field through Python's truthiness-based `or` before the
setters run; the name always comes from the base's `name`.  The `type`
setter runs only for a non-`None` merged value and may raise; the other
setters on our modelled value types cannot. -/
def Channel.init (ch : ChannelArg) (sample_rate : Option Nat)
    (unit : Option String) (dtype : Option String) (type_ : Option PyTy)
    (model : Option String) (url : Option String) : Except PyErr Channel :=
  let (nameStr, sample_rate, unit, type_, dtype, model, url) :=
    match ch with
    | .chan c =>
      (c.name, pyOrN sample_rate c.sample_rate, pyOrS unit c.unit,
       pyOrT type_ (c.type.map .str), pyOrS dtype c.dtype,
       pyOrS model c.model, pyOrS url c.url)
    | .str s => (s, sample_rate, unit, type_, dtype, model, url)
  let (nm, ty0) := set_name nameStr none
  do
    let ty ← match type_ with
      | none => pure ty0
      | some t => set_type t
    let (ifo, sys, sub, sig) := parse_channel_name nm
    pure { name := nm, sample_rate := sample_rate, unit := unit,
           dtype := dtype, type := ty, model := set_model model, url := url,
           ifo := ifo, system := sys, subsystem := sub, signal := sig }

/-- Bare-name construction never raises and equals `Channel.fromName`. -/
theorem Channel.init_fromName (s : String) :
    Channel.init (.str s) none none none none none none = .ok (Channel.fromName s) := by
  unfold Channel.init Channel.fromName
  simp [set_model, pure, Except.pure, bind, Except.bind]

/-- `Channel.ndstype`: `NDS2_CHANNEL_TYPE.get(self.type)`. -/
def Channel.ndstype (c : Channel) : Option Int :=
  match c.type with
  | none => none
  | some t => NDS2_CHANNEL_TYPE.lookup t

/-- `Channel.ndsname`: `"name,type"` when the type is set and not `raw`
or `reduced`, else `name`. -/
def Channel.ndsname (c : Channel) : String :=
  match c.type with
  | some t => if t ≠ "raw" ∧ t ≠ "reduced" then c.name ++ "," ++ t else c.name
  | none => c.name

/- ------------------------------------------------------------------ -/
/- ChannelList._split_names and from_names                             -/
/- ------------------------------------------------------------------ -/

/-- `','  in s` (single-character membership). -/
def pyContainsChar (s : String) (c : Char) : Bool := s.data.contains c

/-- The character class of `re_quote`, `[\s\"\']` (Python 2 `\s` on a
byte string). -/
def quoteWs (c : Char) : Bool :=
  c = ' ' || c = '\t' || c = '\n' || c = '\r' ||
  c = Char.ofNat 11 || c = Char.ofNat 12 || c = '"' || c = '\''

/-- `re_quote.sub('', s)`: strip leading and trailing whitespace/quote
characters. -/
def pyStripQuote (s : String) : String := pyStripChars quoteWs s

/-- The character set of the in-loop `namestr.strip('\' \n')`. -/
def innerStrip (c : Char) : Bool := c = '\'' || c = ' ' || c = '\n'

/-- The alias scan of `_split_names`: the first registered type alias `a`
(in table order) such that `",a"` occurs in the working string. -/
def findAlias (s : String) : Option String :=
  typeAliases.find? (fun a => pyContains s ("," ++ a))

/-- One pass of the `_split_names` loop body on a working string that
contains a comma: returns the emitted token and the new working string.
With a matching alias the string is cut at its first two commas
(`split(',', 2)`; with a single comma the `ValueError` branch consumes
everything); otherwise it is cut at the first comma.  The two `none`
sub-branches are unreachable because the caller's guard ensures a comma
is present (Python would raise there). -/
def aliasCut (a r1 : List Char) : String × String :=
  match splitFirst ',' r1 with
  | some (b, rest) => (String.mk a ++ "," ++ String.mk b, String.mk rest)
  | none => (String.mk a ++ "," ++ String.mk r1, "")

def splitStepAlias (s : String) : String × String :=
  match splitFirst ',' s.data with
  | none => (s, "")
  | some (a, r1) => aliasCut a r1

def splitStepBare (s : String) : String × String :=
  match splitFirst ',' s.data with
  | some (a, rest) => (String.mk a, String.mk rest)
  | none => (s, "")

def splitNamesStep (s : String) : String × String :=
  match findAlias s with
  | some _ => splitStepAlias s
  | none => splitStepBare s

/-- A character list containing `sep` splits. -/
theorem splitFirst_isSome (sep : Char) :
    ∀ cs : List Char, sep ∈ cs → ∃ a b, splitFirst sep cs = some (a, b) := by
  intro cs
  induction cs with
  | nil => intro h; simp at h
  | cons c rest ih =>
    intro h
    by_cases hc : c = sep
    · exact ⟨[], rest, by simp [splitFirst, hc]⟩
    · have hmem : sep ∈ rest := by
        rcases List.mem_cons.mp h with h' | h'
        · exact absurd h'.symm hc
        · exact h'
      obtain ⟨a, b, hab⟩ := ih hmem
      exact ⟨c :: a, b, by simp [splitFirst, hc, hab]⟩

/-- Each non-exiting pass strictly shortens the working string. -/
theorem splitNamesStep_length (s : String)
    (h : pyContainsChar s ',' = true) :
    (splitNamesStep s).2.length < s.length := by
  have hmem : ',' ∈ s.data := by
    simpa [pyContainsChar, List.contains] using h
  have hpos : 0 < s.data.length := List.length_pos.mpr (by
    intro hnil; rw [hnil] at hmem; simp at hmem)
  obtain ⟨a, b, hab⟩ := splitFirst_isSome ',' s.data hmem
  have hlen := splitFirst_length ',' s.data a b hab
  have hslen : s.length = s.data.length := rfl
  cases hf : findAlias s with
  | some al =>
    have hstep : splitNamesStep s = splitStepAlias s := by
      unfold splitNamesStep; rw [hf]
    have hcut : splitStepAlias s = aliasCut a b := by
      unfold splitStepAlias; rw [hab]
    rw [hstep, hcut]
    cases h2 : splitFirst ',' b with
    | none =>
      have : aliasCut a b = (String.mk a ++ "," ++ String.mk b, "") := by
        unfold aliasCut; rw [h2]
      rw [this]
      show ("" : String).length < s.length
      rw [hslen]
      show 0 < s.data.length
      omega
    | some p =>
      obtain ⟨b', rest⟩ := p
      have hlen2 := splitFirst_length ',' b b' rest h2
      have : aliasCut a b = (String.mk a ++ "," ++ String.mk b', String.mk rest) := by
        unfold aliasCut; rw [h2]
      rw [this]
      show (String.mk rest).length < s.length
      rw [hslen]
      show rest.length < s.data.length
      omega
  | none =>
    have hstep : splitNamesStep s = splitStepBare s := by
      unfold splitNamesStep; rw [hf]
    have : splitStepBare s = (String.mk a, String.mk b) := by
      unfold splitStepBare; rw [hab]
    rw [hstep, this]
    show (String.mk b).length < s.length
    rw [hslen]
    show b.length < s.data.length
    omega

/-- Stripping never lengthens a string. -/
theorem pyStripChars_length_le (p : Char → Bool) (s : String) :
    (pyStripChars p s).length ≤ s.length := by
  show ((s.data.dropWhile p).reverse.dropWhile p).reverse.length ≤ s.data.length
  rw [List.length_reverse]
  calc ((s.data.dropWhile p).reverse.dropWhile p).length
      ≤ (s.data.dropWhile p).reverse.length := (List.dropWhile_sublist p).length_le
    _ = (s.data.dropWhile p).length := List.length_reverse _
    _ ≤ s.data.length := (List.dropWhile_sublist p).length_le

/-- The `while True` loop of `_split_names`: strip, exit when no comma
remains (emitting the non-empty remainder), otherwise emit one token and
continue.  Termination: each pass strictly shortens the working string. -/
def splitNamesLoop (out : List String) (s : String) : List String :=
  let s' := pyStripChars innerStrip s
  if h : pyContainsChar s' ',' = true then
    splitNamesLoop (out ++ [(splitNamesStep s').1]) (splitNamesStep s').2
  else if s' ≠ "" then out ++ [s'] else out
termination_by s.length
decreasing_by
  calc (splitNamesStep (pyStripChars innerStrip s)).2.length
      < (pyStripChars innerStrip s).length := splitNamesStep_length _ h
    _ ≤ s.length := pyStripChars_length_le _ s

/-- `ChannelList._split_names`. -/
def _split_names (namestr : String) : List String :=
  splitNamesLoop [] (pyStripQuote namestr)

/-- `ChannelList.from_names`: split every input string and build one
`Channel` per token (the bare-name constructor path, which cannot
raise). -/
def from_names (names : List String) : List Channel :=
  names.flatMap (fun namestr => (_split_names namestr).map Channel.fromName)

/-- Number of commas in a string. -/
def commaCount (s : String) : Nat := s.data.count ','

theorem splitFirst_count (sep : Char) (cs a b : List Char)
    (h : splitFirst sep cs = some (a, b)) :
    cs.count sep = a.count sep + b.count sep + 1 := by
  obtain ⟨heq, _⟩ := splitFirst_eq sep cs a b h
  subst heq
  simp [List.count_append]
  omega

/-- Each non-exiting pass of the `_split_names` loop consumes at least
one comma of the working string. -/
theorem splitNamesStep_count (s : String)
    (h : pyContainsChar s ',' = true) :
    commaCount (splitNamesStep s).2 < commaCount s := by
  have hmem : ',' ∈ s.data := by
    simpa [pyContainsChar, List.contains] using h
  have hcpos : 0 < s.data.count ',' := List.count_pos_iff.mpr hmem
  obtain ⟨a, b, hab⟩ := splitFirst_isSome ',' s.data hmem
  have hcnt := splitFirst_count ',' s.data a b hab
  cases hf : findAlias s with
  | some al =>
    have hstep : splitNamesStep s = splitStepAlias s := by
      unfold splitNamesStep; rw [hf]
    have hcut : splitStepAlias s = aliasCut a b := by
      unfold splitStepAlias; rw [hab]
    rw [hstep, hcut]
    cases h2 : splitFirst ',' b with
    | none =>
      have : aliasCut a b = (String.mk a ++ "," ++ String.mk b, "") := by
        unfold aliasCut; rw [h2]
      rw [this]
      show commaCount "" < commaCount s
      have h0 : commaCount "" = 0 := rfl
      have hs : commaCount s = s.data.count ',' := rfl
      omega
    | some p =>
      obtain ⟨b', rest⟩ := p
      have hcnt2 := splitFirst_count ',' b b' rest h2
      have : aliasCut a b = (String.mk a ++ "," ++ String.mk b', String.mk rest) := by
        unfold aliasCut; rw [h2]
      rw [this]
      show commaCount (String.mk rest) < commaCount s
      unfold commaCount
      show rest.count ',' < s.data.count ','
      omega
  | none =>
    have hstep : splitNamesStep s = splitStepBare s := by
      unfold splitNamesStep; rw [hf]
    have : splitStepBare s = (String.mk a, String.mk b) := by
      unfold splitStepBare; rw [hab]
    rw [hstep, this]
    show commaCount (String.mk b) < commaCount s
    unfold commaCount
    show b.count ',' < s.data.count ','
    omega

/- ------------------------------------------------------------------ -/
/- ChannelList.ifos                                                    -/
/- ------------------------------------------------------------------ -/

/-- `ChannelList.ifos`: `set([c.ifo for c in self])` — the set of `ifo`
values of the elements, `None` included. -/
def ChannelList.ifos (l : List Channel) : Finset (Option String) :=
  (l.map Channel.ifo).toFinset

/-- Defined from the spec's words, for comparison with the code:
"the set of distinct non-null `ifo` values". -/
def ifosSpec (l : List Channel) : Finset String :=
  (l.filterMap Channel.ifo).toFinset

/- ------------------------------------------------------------------ -/
/- Claim theorems: C7, C1, C10, C3, C4                                 -/
/- ------------------------------------------------------------------ -/

/-- C7: the name parser satisfies
`parse("H1:SYS-SUB_SIG") = ("H1","SYS","SUB","SIG")`,
`parse("SYS") = (null,"SYS",null,null)` and
`parse("") = (null,null,null,null)`. -/
theorem c7_parse_channel_name_examples :
    parse_channel_name "H1:SYS-SUB_SIG" = (some "H1", some "SYS", some "SUB", some "SIG") ∧
    parse_channel_name "SYS" = (none, some "SYS", none, none) ∧
    parse_channel_name "" = (none, none, none, none) := by
  refine ⟨?_, ?_, ?_⟩ <;> rfl

/-- C1: evaluating `ChannelList.from_names` at the claim's input
`"H1:A-B, H1:C-D,raw"`.  The splitter cuts the string at its first two
commas as soon as any `,alias` occurs anywhere, producing the tokens
`"H1:A-B, H1:C-D"` and `"raw"`; the resulting second channel is named
`"raw"` and carries no type, contradicting the claimed
`type == "raw"` (the claim's first half — exactly two channels — does
hold). -/
theorem c1_from_names_actual :
    (from_names ["H1:A-B, H1:C-D,raw"]).map (fun c => (c.name, c.type)) =
      [("H1:A-B, H1:C-D", none), ("raw", none)] := by
  have e1 : _split_names "H1:A-B, H1:C-D,raw" = ["H1:A-B, H1:C-D", "raw"] := by
    unfold _split_names
    rw [splitNamesLoop, splitNamesLoop]
    rfl
  unfold from_names
  simp only [List.flatMap_cons, List.flatMap_nil, List.append_nil]
  rw [e1]
  rfl

/-- C10: `_split_names` terminates: every pass of its loop that does not
exit (i.e. whose stripped working string still contains a comma)
strictly shortens the working string and consumes at least one comma. -/
theorem c10_split_names_terminating (s : String)
    (h : pyContainsChar (pyStripChars innerStrip s) ',' = true) :
    (splitNamesStep (pyStripChars innerStrip s)).2.length < s.length ∧
    commaCount (splitNamesStep (pyStripChars innerStrip s)).2 <
      commaCount (pyStripChars innerStrip s) := by
  constructor
  · calc (splitNamesStep (pyStripChars innerStrip s)).2.length
        < (pyStripChars innerStrip s).length := splitNamesStep_length _ h
      _ ≤ s.length := pyStripChars_length_le _ s
  · exact splitNamesStep_count _ h

/-- Witness for C10 at the concrete working string `"a,b"`. -/
theorem c10_witness :
    pyContainsChar (pyStripChars innerStrip "a,b") ',' = true ∧
    (splitNamesStep (pyStripChars innerStrip "a,b")).2.length < ("a,b" : String).length ∧
    commaCount (splitNamesStep (pyStripChars innerStrip "a,b")).2 <
      commaCount (pyStripChars innerStrip "a,b") :=
  ⟨by rfl, (c10_split_names_terminating "a,b" (by rfl)).1,
    (c10_split_names_terminating "a,b" (by rfl)).2⟩

/-- C3 counterexample: a list holding one channel whose name has no
interferometer prefix.  The code's `ifos` is `{None}`, not the empty set
of non-null values demanded by the claim. -/
theorem c3_counterexample :
    ChannelList.ifos [Channel.fromName "SYS"] ≠
      (ifosSpec [Channel.fromName "SYS"]).image some := by
  decide

/-- C3, amended: `ifos` is the set of distinct `ifo` values including
`None` — the spec's set of non-null values, plus `None` whenever some
element has no interferometer prefix. -/
theorem c3_ifos_amended (l : List Channel) :
    ChannelList.ifos l =
      (ifosSpec l).image some ∪
        (if none ∈ l.map Channel.ifo then {none} else ∅) := by
  ext x
  cases x with
  | none =>
    by_cases h : none ∈ l.map Channel.ifo <;>
      simp [ChannelList.ifos, ifosSpec, h, List.mem_filterMap]
  | some v =>
    by_cases h : none ∈ l.map Channel.ifo <;>
      simp [ChannelList.ifos, ifosSpec, h, List.mem_filterMap, List.mem_map]

/-- Whether a trailing segment is a recognized channel-type alias: the
string branch of the `type` setter accepts exactly the lowercase-mapped
members of the alias table. -/
def recognizedTypeStr (s : String) : Bool := typeAliases.contains (pyLower s)

/-- C4: for every name string with a comma whose segment after the last
comma is not a recognized type alias, the `name` setter does not raise:
the whole original string becomes `_name`, the stored type is untouched,
and bare construction from that string succeeds with no type set. -/
theorem c4_unrecognized_tail (s : String) (a b : List Char) (t0 : Option String)
    (hsplit : splitLast ',' s.data = some (a, b))
    (hrec : recognizedTypeStr (String.mk b) = false) :
    set_name s t0 = (s, t0) ∧
    (Channel.fromName s).name = s ∧
    (Channel.fromName s).type = none ∧
    Channel.init (.str s) none none none none none none = .ok (Channel.fromName s) := by
  have key : ∀ t : Option String, set_name s t = (s, t) := by
    intro t
    unfold set_name
    rw [hsplit]
    show set_name_tail s t a b = (s, t)
    unfold set_name_tail
    have hty : set_type (.str (String.mk b)) =
        .error (.valueError ("Channel type '" ++ String.mk b ++ "' not understood.")) := by
      show set_type_str (String.mk b) = _
      unfold set_type_str
      unfold recognizedTypeStr at hrec
      simp only [hrec]
      simp
    rw [hty]
  refine ⟨key t0, ?_, ?_, Channel.init_fromName s⟩
  · unfold Channel.fromName
    rw [key none]
  · unfold Channel.fromName
    rw [key none]

/-- Witness for C4 at the concrete string `"X:Y,foo"`. -/
theorem c4_witness :
    splitLast ',' ("X:Y,foo" : String).data = some ("X:Y".data, "foo".data) ∧
    recognizedTypeStr "foo" = false ∧
    set_name "X:Y,foo" none = ("X:Y,foo", none) ∧
    (Channel.fromName "X:Y,foo").type = none :=
  ⟨by rfl, by rfl,
    (c4_unrecognized_tail "X:Y,foo" "X:Y".data "foo".data none (by rfl) (by rfl)).1,
    (c4_unrecognized_tail "X:Y,foo" "X:Y".data "foo".data none (by rfl) (by rfl)).2.2.1⟩

/- ------------------------------------------------------------------ -/
/- ChannelList.sieve                                                   -/
/- ------------------------------------------------------------------ -/

/-- A compiled regular expression: its pattern string and flags
(`re._pattern_type` carries both). -/
structure RePat where
  pattern : String
  flags : Nat
  deriving Repr, DecidableEq

/-- The `name` argument of `sieve`: `None` (the default), a literal
string, or a pre-compiled pattern. -/
inductive NameArg where
  | pynone
  | str (s : String)
  | compiled (p : RePat)

/-- `re.compile`: compiling `None` raises `TypeError` (the first
argument must be a string or a compiled pattern); a string compiles. -/
def re_compile (p : Option String) (flags : Nat) : Except PyErr RePat :=
  match p with
  | none => .error (.typeError "first argument must be string or compiled pattern")
  | some s => .ok ⟨s, flags⟩

/-- Model of `re.search` for the literal patterns `sieve` builds: a
substring search (the spec: "match is applied as a substring/partial
search"), anchored at an end when the pattern carries the `\A`/`\Z`
anchors that `exact_match` prepends/appends.  Further regex
metacharacters are outside the scope of this embedding. -/
def reSearch (rx : RePat) (text : String) : Bool :=
  let (p1, aStart) :=
    if pyStartsWith rx.pattern "\\A" then ((⟨rx.pattern.data.drop 2⟩ : String), true)
    else (rx.pattern, false)
  let (p2, aEnd) :=
    if pyEndsWith p1 "\\Z" then ((⟨p1.data.take (p1.data.length - 2)⟩ : String), true)
    else (p1, false)
  match aStart, aEnd with
  | true, true => text == p2
  | true, false => pyStartsWith text p2
  | false, true => pyEndsWith text p2
  | false, false => pyContains text p2

/-- A Python attribute value, for the `**others` filters. -/
inductive PyVal where
  | vnone
  | vstr (s : String)
  | vint (n : Int)
  deriving Repr, DecidableEq, BEq

def optStrVal : Option String → PyVal
  | none => .vnone
  | some s => .vstr s

def optNatVal : Option Nat → PyVal
  | none => .vnone
  | some n => .vint n

/-- `Channel.texname`: the name with underscores escaped for LaTeX. -/
def Channel.texname (c : Channel) : String :=
  ⟨c.name.data.flatMap (fun ch => if ch = '_' then ['\\', '_'] else [ch])⟩

/-- `getattr(entry, attr)` over the attributes a `Channel` exposes;
`none` models `hasattr(entry, attr)` being false. -/
def getattrChan (c : Channel) : String → Option PyVal
  | "name" => some (.vstr c.name)
  | "sample_rate" => some (optNatVal c.sample_rate)
  | "unit" => some (optStrVal c.unit)
  | "dtype" => some (optStrVal c.dtype)
  | "type" => some (optStrVal c.type)
  | "model" => some (optStrVal c.model)
  | "url" => some (optStrVal c.url)
  | "ifo" => some (optStrVal c.ifo)
  | "system" => some (optStrVal c.system)
  | "subsystem" => some (optStrVal c.subsystem)
  | "signal" => some (optStrVal c.signal)
  | "texname" => some (.vstr (Channel.texname c))
  | "ndsname" => some (.vstr (Channel.ndsname c))
  | "ndstype" => some (match Channel.ndstype c with
      | none => .vnone
      | some n => .vint n)
  | _ => none

/-- The `sample_range` comprehension: `float(entry.sample_rate)` raises
`TypeError` on a channel with no rate; otherwise the element is kept
when its magnitude lies in the inclusive `[low, high]` bounds. -/
def rangeFilter (lo hi : Nat) : List Channel → Except PyErr (List Channel)
  | [] => .ok []
  | e :: rest =>
    match e.sample_rate with
    | none => .error (.typeError "float() argument must be a string or a number")
    | some v => do
      let r ← rangeFilter lo hi rest
      if lo ≤ v ∧ v ≤ hi then pure (e :: r) else pure r

/-- The `**others` loop: each non-`None` keyword value keeps only the
elements that possess the attribute with an equal value. -/
def applyOthers : List (String × PyVal) → List Channel → List Channel
  | [], c => c
  | (attr, v) :: rest, c =>
    applyOthers rest
      (if v = PyVal.vnone then c
       else c.filter (fun e =>
         match getattrChan e attr with
         | some x => x == v
         | none => false))

/-- The `exact_match` pattern transformation:
`name.startswith(r'\A') and name or r"\A%s" % name`, and likewise for
the `\Z` suffix. -/
def exactPattern (s : String) : String :=
  let s1 := if pyStartsWith s "\\A" then s else "\\A" ++ s
  if pyEndsWith s1 "\\Z" then s1 else s1 ++ "\\Z"

/-- The `sample_rate` filter: keep channels with a truthy stored rate
whose magnitude equals the requested one. -/
def rateFilterStep (sample_rate : Option Nat) (c : List Channel) : List Channel :=
  match sample_rate with
  | some r => c.filter (fun e =>
      match e.sample_rate with
      | some v => v != 0 && v == r
      | none => false)
  | none => c

/-- The `sample_range` filter, applied only when a range is given. -/
def rangeStep (sample_range : Option (Nat × Nat)) (c : List Channel) :
    Except PyErr (List Channel) :=
  match sample_range with
  | some (lo, hi) => rangeFilter lo hi c
  | none => Except.ok c

/-- The filter pipeline of `sieve`, after the pattern/flags have been
extracted: compile the name pattern (raising `TypeError` when it is
`None`), copy the receiver, then apply the name, `sample_rate`,
`sample_range` and attribute filters in order. -/
def sieveFilters (self : List Channel) (nm : Option String) (flags : Nat)
    (sample_rate : Option Nat) (sample_range : Option (Nat × Nat))
    (others : List (String × PyVal)) : Except PyErr (List Channel) := do
  let rx ← re_compile nm flags
  let c := self
  let c := match nm with
    | some _ => c.filter (fun e => reSearch rx e.name)
    | none => c
  let c := rateFilterStep sample_rate c
  let c ← rangeStep sample_range c
  Except.ok (applyOthers others c)

/-- `ChannelList.sieve`.  Sample-rate magnitudes are compared as the
modelled natural numbers (the source strips the unit and compares the
numeric values). -/
def sieveCore (self : List Channel) (name : NameArg) (sample_rate : Option Nat)
    (sample_range : Option (Nat × Nat)) (exact_match : Bool)
    (others : List (String × PyVal)) : Except PyErr (List Channel) := do
  let (nm0, flags) :=
    match name with
    | .compiled p => (some p.pattern, p.flags)
    | .str s => ((some s : Option String), 0)
    | .pynone => (none, 0)
  let nm ← if exact_match then
      match nm0 with
      | none => Except.error (.attributeError
          "'NoneType' object has no attribute 'startswith'")
      | some s => Except.ok (some (exactPattern s))
    else Except.ok nm0
  sieveFilters self nm flags sample_rate sample_range others

/-- `sieve` with the receiver's post-state made explicit: the source
works on `list(self)` (a copy) and on fresh comprehension lists and
never assigns to the receiver, so the post-state is the receiver
itself. -/
def sieveS (self : List Channel) (name : NameArg) (sample_rate : Option Nat)
    (sample_range : Option (Nat × Nat)) (exact_match : Bool)
    (others : List (String × PyVal)) :
    List Channel × Except PyErr (List Channel) :=
  (self, sieveCore self name sample_rate sample_range exact_match others)

theorem rangeFilter_sublist (lo hi : Nat) :
    ∀ (c r : List Channel), rangeFilter lo hi c = .ok r → r.Sublist c := by
  intro c
  induction c with
  | nil =>
    intro r h
    simp [rangeFilter] at h
    rw [← h]
  | cons e rest ih =>
    intro r h
    unfold rangeFilter at h
    cases hsr : e.sample_rate with
    | none => rw [hsr] at h; simp at h
    | some v =>
      rw [hsr] at h
      cases hrec : rangeFilter lo hi rest with
      | error err =>
        rw [hrec] at h
        simp [bind, Except.bind] at h
      | ok r' =>
        rw [hrec] at h
        simp only [bind, Except.bind, pure, Except.pure] at h
        by_cases hcond : lo ≤ v ∧ v ≤ hi
        · rw [if_pos hcond] at h
          rw [← Except.ok.inj h]
          exact (ih r' hrec).cons₂ e
        · rw [if_neg hcond] at h
          rw [← Except.ok.inj h]
          exact (ih r' hrec).cons e

theorem applyOthers_sublist :
    ∀ (o : List (String × PyVal)) (c : List Channel),
      (applyOthers o c).Sublist c := by
  intro o
  induction o with
  | nil => intro c; simp [applyOthers]
  | cons p rest ih =>
    intro c
    obtain ⟨attr, v⟩ := p
    unfold applyOthers
    by_cases hv : v = PyVal.vnone
    · rw [if_pos hv]; exact ih c
    · rw [if_neg hv]
      exact (ih _).trans (List.filter_sublist c)

theorem rateFilterStep_sublist (sample_rate : Option Nat) (c : List Channel) :
    (rateFilterStep sample_rate c).Sublist c := by
  cases sample_rate with
  | none => simp [rateFilterStep]
  | some rt => exact List.filter_sublist c

theorem rangeStep_sublist (sample_range : Option (Nat × Nat))
    (c r : List Channel) (h : rangeStep sample_range c = .ok r) :
    r.Sublist c := by
  cases sample_range with
  | none =>
    simp only [rangeStep, Except.ok.injEq] at h
    rw [← h]
  | some p =>
    obtain ⟨lo, hi⟩ := p
    exact rangeFilter_sublist lo hi c r h

theorem sieveFilters_sublist (self : List Channel) (nm : Option String)
    (flags : Nat) (sample_rate : Option Nat)
    (sample_range : Option (Nat × Nat)) (others : List (String × PyVal))
    (r : List Channel)
    (h : sieveFilters self nm flags sample_rate sample_range others = .ok r) :
    r.Sublist self := by
  cases nm with
  | none => simp [sieveFilters, re_compile, bind, Except.bind] at h
  | some s =>
    unfold sieveFilters re_compile at h
    simp only [bind, Except.bind] at h
    cases hrs : rangeStep sample_range (rateFilterStep sample_rate
        (self.filter (fun e => reSearch ⟨s, flags⟩ e.name))) with
    | error err => rw [hrs] at h; simp at h
    | ok c3 =>
      rw [hrs] at h
      simp only [Except.ok.injEq] at h
      rw [← h]
      exact ((applyOthers_sublist others c3).trans
        ((rangeStep_sublist _ _ _ hrs).trans
          (rateFilterStep_sublist sample_rate _))).trans
        (List.filter_sublist self)

/- ------------------------------------------------------------------ -/
/- Claim theorems: C2, C8                                              -/
/- ------------------------------------------------------------------ -/

/-- C2: calling `sieve` with the `name` argument omitted always raises
`TypeError` — `re.compile(name)` runs before the `if name is not None`
guard — whatever other single filter is supplied, so the filters are
not independently optional.  This contradicts the claim; the source's
own signature defaults `name` to `None`, so the code, not the claim,
is at fault. -/
theorem c2_sieve_name_required (l : List Channel) (sample_rate : Option Nat)
    (sample_range : Option (Nat × Nat)) (others : List (String × PyVal)) :
    sieveCore l .pynone sample_rate sample_range false others =
      .error (.typeError "first argument must be string or compiled pattern") := by
  rfl

/-- C8 counterexample: with `name` omitted and a `sample_rate` filter,
`sieve` raises instead of returning a `ChannelList`, so "for every
combination of filter arguments `sieve` returns a new `ChannelList`" is
false. -/
theorem c8_counterexample :
    (sieveS [Channel.fromName "H1:B"] .pynone (some 2) none false []).2 =
      .error (.typeError "first argument must be string or compiled pattern") := by
  rfl

/-- C8, amended: `sieve` never mutates its receiver — the receiver's
elements and order after any call are unchanged — and whenever the call
returns (rather than raising) the result is a sublist of the receiver,
hence in original relative order. -/
theorem c8_sieve_frame (l : List Channel) (name : NameArg)
    (sample_rate : Option Nat) (sample_range : Option (Nat × Nat))
    (exact_match : Bool) (others : List (String × PyVal)) :
    (sieveS l name sample_rate sample_range exact_match others).1 = l ∧
    ∀ r, (sieveS l name sample_rate sample_range exact_match others).2 = .ok r →
      r.Sublist l := by
  refine ⟨rfl, ?_⟩
  intro r h
  replace h : sieveCore l name sample_rate sample_range exact_match others = .ok r := h
  unfold sieveCore at h
  cases name with
  | pynone =>
    cases exact_match with
    | false =>
      simp only [bind, Except.bind] at h
      exact sieveFilters_sublist l none 0 sample_rate sample_range others r h
    | true => simp [bind, Except.bind] at h
  | str s =>
    cases exact_match with
    | false =>
      simp only [bind, Except.bind] at h
      exact sieveFilters_sublist l (some s) 0 sample_rate sample_range others r h
    | true =>
      simp only [bind, Except.bind] at h
      exact sieveFilters_sublist l (some (exactPattern s)) 0 sample_rate
        sample_range others r h
  | compiled p =>
    cases exact_match with
    | false =>
      simp only [bind, Except.bind] at h
      exact sieveFilters_sublist l (some p.pattern) p.flags sample_rate
        sample_range others r h
    | true =>
      simp only [bind, Except.bind] at h
      exact sieveFilters_sublist l (some (exactPattern p.pattern)) p.flags
        sample_rate sample_range others r h

/-- Witness for C8's amended statement at a concrete returning call. -/
theorem c8_witness :
    (sieveS [Channel.fromName "H1:C"] (.str "H1") none none false []).1 =
      [Channel.fromName "H1:C"] ∧
    ([Channel.fromName "H1:C"] : List Channel).Sublist [Channel.fromName "H1:C"] :=
  ⟨(c8_sieve_frame [Channel.fromName "H1:C"] (.str "H1") none none false []).1,
    (c8_sieve_frame [Channel.fromName "H1:C"] (.str "H1") none none false []).2
      [Channel.fromName "H1:C"] (by rfl)⟩

/- ------------------------------------------------------------------ -/
/- Claim C9: copy-merge construction keys off truthiness               -/
/- ------------------------------------------------------------------ -/

/-- Registered aliases are already lowercase. -/
theorem alias_lower_fixed (t : String) (h : typeAliases.contains t = true) :
    pyLower t = t := by
  have hmem : t ∈ typeAliases := by simpa using h
  simp [typeAliases, NDS2_CHANNEL_TYPE] at hmem
  rcases hmem with rfl | rfl | rfl | rfl | rfl | rfl | rfl <;> rfl

/-- Well-formedness of a reachable `Channel`: its `type` was produced by
the validating setter (hence a registered alias) and its `model` by the
lowercasing setter (hence lowercase-stable). -/
def Channel.WF (c : Channel) : Prop :=
  (∀ t, c.type = some t → typeAliases.contains t = true) ∧
  (∀ m, c.model = some m → pyLower m = m)

/-- C9 (the claim states the code's quirk as fact, and it holds):
copy-merge construction merges with `or`, keying off truthiness rather
than presence; when a base `Channel` is given together with explicitly
passed falsy overrides (`sample_rate=0`, `unit=""`, `dtype=""`,
`type=""` or `type=0`, `model=""`, `url=""`), the construction succeeds
and every such field takes the base channel's value, not the passed
override. -/
theorem c9_falsy_overrides_ignored (base : Channel) (sr : Option Nat)
    (u d m url' : Option String) (t : Option PyTy)
    (hwf : Channel.WF base)
    (hsr : truthyN sr = false) (hu : truthyS u = false)
    (hd : truthyS d = false) (ht : truthyT t = false)
    (hm : truthyS m = false) (hurl : truthyS url' = false) :
    ∃ c, Channel.init (.chan base) sr u d t m url' = .ok c ∧
      c.sample_rate = base.sample_rate ∧ c.unit = base.unit ∧
      c.dtype = base.dtype ∧ c.model = base.model ∧ c.url = base.url := by
  obtain ⟨hwt, hwm⟩ := hwf
  have hmodel : set_model base.model = base.model := by
    cases hbm : base.model with
    | none => rfl
    | some mm =>
      show (if mm = "" then some "" else some (pyLower mm)) = some mm
      by_cases hmm : mm = ""
      · rw [if_pos hmm, hmm]
      · rw [if_neg hmm, hwm mm hbm]
  unfold Channel.init
  simp only [pyOrN, pyOrS, pyOrT, hsr, hu, hd, ht, hm, hurl,
    Bool.false_eq_true, if_false]
  cases hbt : base.type with
  | none =>
    simp only [Option.map_none']
    refine ⟨_, rfl, rfl, rfl, rfl, ?_, rfl⟩
    exact hmodel
  | some bt =>
    have halias := hwt bt hbt
    have hlow := alias_lower_fixed bt halias
    simp only [Option.map_some']
    have hst : set_type (.str bt) = .ok (some bt) := by
      show set_type_str bt = .ok (some bt)
      unfold set_type_str
      rw [hlow, if_pos halias]
    rw [hst]
    simp only [bind, Except.bind]
    refine ⟨_, rfl, rfl, rfl, rfl, ?_, rfl⟩
    exact hmodel

/-- A concrete well-formed base channel for the C9 witness. -/
def base0 : Channel :=
  { name := "X", sample_rate := some 256, unit := some "V",
    dtype := some "float64", type := some "raw", model := some "mdl",
    url := some "u", ifo := none, system := some "X",
    subsystem := none, signal := none }

theorem base0_wf : Channel.WF base0 := by
  constructor
  · intro t h
    simp [base0] at h
    rw [← h]
    rfl
  · intro m h
    simp [base0] at h
    rw [← h]
    rfl

/-- Witness for C9: all falsy overrides at a concrete base channel. -/
theorem c9_witness :
    ∃ c, Channel.init (.chan base0) (some 0) (some "") (some "")
        (some (.str "")) (some "") (some "") = .ok c ∧
      c.sample_rate = base0.sample_rate ∧ c.unit = base0.unit ∧
      c.dtype = base0.dtype ∧ c.model = base0.model ∧ c.url = base0.url :=
  c9_falsy_overrides_ignored base0 (some 0) (some "") (some "") (some "")
    (some "") (some (.str "")) base0_wf rfl rfl rfl rfl rfl rfl

/- ------------------------------------------------------------------ -/
/- ChannelList.query_nds2                                              -/
/- ------------------------------------------------------------------ -/

/-- A foreign NDS2 channel descriptor, with the field set given by the
spec's discovery-connection interface: name, sample rate, signal unit,
channel-type code and data-type code. -/
structure Nds2Chan where
  name : String
  sample_rate : Nat
  signal_units : String
  channel_type : Int
  data_type : Int

/-- Modelled from the spec: `nds2.channel.channel_type_to_string` (the
external nds2 client) maps a foreign type code to the canonical
ChannelType string.  A code outside the table yields a non-alias string
(such a record would fail `Channel` construction; no claim exercises
it). -/
def channel_type_to_string (code : Int) : String :=
  (NDS2_CHANNEL_TYPESTR.lookup code).getD "unknown"

/-- Modelled from the spec: the fixed lookup table from foreign
data-type codes (the nds2 `DATA_TYPE_*` flags) to numeric sample
encodings; unmapped codes resolve to no dtype rather than failing. -/
def nds2DtypeMap : List (Int × String) :=
  [(1, "int16"), (2, "int32"), (4, "int64"),
   (8, "float32"), (16, "float64"), (32, "complex64")]

/-- `Channel.from_nds2`: build a `Channel` from a foreign descriptor. -/
def Channel.from_nds2 (r : Nds2Chan) : Except PyErr Channel :=
  let unit := if r.signal_units = "" then none else some r.signal_units
  let ctype := channel_type_to_string r.channel_type
  let dtype := nds2DtypeMap.lookup r.data_type
  Channel.init (.str r.name) (some r.sample_rate) unit dtype
    (some (.str ctype)) none none

/-- The discovery-connection capability (spec §6): `findChannels(name[,
type])`; the optional second argument is the raw Python value the source
passes (an integer code or the caller's `type` argument). -/
structure Nds2Connection where
  find_channels : String → Option PyTy → List Nds2Chan

/-- Python's `map` over a fallible function: the first exception
propagates. -/
def mapExcept (f : α → Except ε β) : List α → Except ε (List β)
  | [] => .ok []
  | x :: xs => do
    let y ← f x
    let ys ← mapExcept f xs
    pure (y :: ys)

/-- Whether an integer is a power of two (`log(type, 2).is_integer()`). -/
def isPow2 (n : Nat) : Bool := n != 0 && (n &&& (n - 1)) == 0

/-- The guard choosing whether the probe channel carries the `type`
argument: `type and (isinstance(type, (unicode, str)) or
(isinstance(type, int) and log(type, 2).is_integer()))`.  `log` raises
`ValueError` on a negative integer. -/
def typeGuard : Option PyTy → Except PyErr Bool
  | none => .ok false
  | some (.str s) => .ok (s != "")
  | some (.int n) =>
    if n = 0 then .ok false
    else if n < 0 then .error (.valueError "math domain error")
    else .ok (isPow2 n.toNat)

/-- The discovery call: `find_channels(c.ndsname, c.ndstype)` when the
probe resolved an NDS type code, else `find_channels(c.name, type)` when
a `type` argument was given, else `find_channels(c.name)`. -/
def dispatchFind (conn : Nds2Connection) (type_ : Option PyTy) (c : Channel) :
    List Nds2Chan :=
  match Channel.ndstype c with
  | some code => conn.find_channels (Channel.ndsname c) (some (.int code))
  | none =>
    match type_ with
    | some t => conn.find_channels c.name (some t)
    | none => conn.find_channels c.name none

/-- Per-name discovery: build the probe channel, enumerate foreign
records, convert each through `Channel.from_nds2`. -/
def resolveMatches (conn : Nds2Connection) (type_ : Option PyTy)
    (name : String) : Except PyErr (List Channel) := do
  let useTyped ← typeGuard type_
  let c ← if useTyped then Channel.init (.str name) none none none type_ none none
          else Channel.init (.str name) none none none none none none
  mapExcept Channel.from_nds2 (dispatchFind conn type_ c)

/-- `str(x)` for an optional string (`None` prints as `None`). -/
def pyStrOptS : Option String → String
  | none => "None"
  | some s => s

/-- `str(c.sample_rate)`: a Quantity prints as `<value> Hz`, with the
float magnitude of the integral rates modelled here rendered `n.0`. -/
def pyStrRate : Option Nat → String
  | none => "None"
  | some n => toString n ++ ".0 Hz"

/-- One line of the ambiguity enumeration:
`'%s (%s, %s)' % (str(c), c.type, c.sample_rate)`. -/
def fmtMatch (c : Channel) : String :=
  c.name ++ " (" ++ pyStrOptS c.type ++ ", " ++ pyStrRate c.sample_rate ++ ")"

/-- `sep.join(parts)`. -/
def joinSep (sep : String) : List String → String
  | [] => ""
  | [x] => x
  | x :: y :: rest => x ++ sep ++ joinSep sep (y :: rest)

def noMatchMsg (name : String) : String :=
  "No match for channel '" ++ name ++ "' in NDS database"

def ambiguousMsg (name : String) (found : List Channel) : String :=
  "Multiple matches for channel '" ++ name ++
    "' in NDS database, ambiguous request:\n    " ++
    joinSep "\n    " (found.map fmtMatch)

def rateWarnMsg (name : String) : String :=
  "Multiple instances of '" ++ name ++
    "' found with different sample rates, returning first."

/-- The per-name branch on the resolved matches: with `unique`, an empty
identity set raises the not-found error, several distinct identities
raise the enumerating ambiguity error, a single identity with several
rate variants warns and keeps only the first; otherwise every match is
kept.  Identities are the `ndsname` strings, collected as a Python
`set`. -/
def uniqueBranch (unique : Bool) (name : String) (found : List Channel) :
    Except PyErr (List Channel × List String) :=
  let idents := (found.map Channel.ndsname).toFinset
  if unique ∧ idents.card = 0 then .error (.valueError (noMatchMsg name))
  else if unique ∧ idents.card > 1 then
    .error (.valueError (ambiguousMsg name found))
  else if unique ∧ found.length > 1 then .ok (found.take 1, [rateWarnMsg name])
  else .ok (found, [])

def queryOneName (conn : Nds2Connection) (type_ : Option PyTy) (unique : Bool)
    (name : String) : Except PyErr (List Channel × List String) := do
  let found ← resolveMatches conn type_ name
  uniqueBranch unique name found

/-- `ChannelList.query_nds2` over an open connection: the loop over the
requested names, accumulating matches (and emitted warnings) in request
order.  The connection-opening preamble (`auth_connect` from a host
name) is external I/O outside this core. -/
def query_nds2 (conn : Nds2Connection) (names : List String)
    (type_ : Option PyTy) (unique : Bool) :
    Except PyErr (List Channel × List String) :=
  names.foldlM (fun acc n => do
    let r ← queryOneName conn type_ unique n
    pure (acc.1 ++ r.1, acc.2 ++ r.2)) ([], [])

theorem isPrefixOf_self (l : List Char) : l.isPrefixOf l = true := by
  induction l with
  | nil => rfl
  | cons c rest ih =>
    show (c == c && rest.isPrefixOf rest) = true
    rw [Bool.and_eq_true]
    exact ⟨by simp, ih⟩

theorem isPrefixOf_append_right (n a b : List Char)
    (h : n.isPrefixOf a = true) : n.isPrefixOf (a ++ b) = true := by
  induction n generalizing a with
  | nil => cases a ++ b <;> rfl
  | cons c n' ih =>
    cases a with
    | nil => simp [List.isPrefixOf] at h
    | cons c' a' =>
      show (c == c' && n'.isPrefixOf (a' ++ b)) = true
      have h' : (c == c' && n'.isPrefixOf a') = true := h
      rw [Bool.and_eq_true] at h' ⊢
      exact ⟨h'.1, ih a' h'.2⟩

theorem containsSub_append_left (a b n : List Char)
    (h : containsSub a n = true) : containsSub (a ++ b) n = true := by
  induction a with
  | nil =>
    simp [containsSub] at h
    subst h
    cases b with
    | nil => simp [containsSub]
    | cons c rest => simp [containsSub, List.isPrefixOf]
  | cons c rest ih =>
    simp only [containsSub, Bool.or_eq_true] at h
    rcases h with h | h
    · show (n.isPrefixOf (c :: rest ++ b) || containsSub (rest ++ b) n) = true
      rw [Bool.or_eq_true]
      left
      exact isPrefixOf_append_right n (c :: rest) b h
    · show (n.isPrefixOf (c :: rest ++ b) || containsSub (rest ++ b) n) = true
      rw [Bool.or_eq_true]
      right
      exact ih h

theorem containsSub_append_right (a b n : List Char)
    (h : containsSub b n = true) : containsSub (a ++ b) n = true := by
  induction a with
  | nil => exact h
  | cons c rest ih =>
    show (n.isPrefixOf (c :: rest ++ b) || containsSub (rest ++ b) n) = true
    rw [Bool.or_eq_true]
    right
    exact ih

theorem containsSub_self (l : List Char) : containsSub l l = true := by
  cases l with
  | nil => rfl
  | cons c rest =>
    show (List.isPrefixOf (c :: rest) (c :: rest) || _) = true
    rw [Bool.or_eq_true]
    left
    exact isPrefixOf_self _

/-- A member of the joined list occurs in the join. -/
theorem joinSep_contains (sep : String) :
    ∀ (parts : List String) (x : String), x ∈ parts →
      pyContains (joinSep sep parts) x = true := by
  intro parts
  induction parts with
  | nil => intro x h; simp at h
  | cons p rest ih =>
    intro x h
    cases rest with
    | nil =>
      simp at h
      subst h
      exact containsSub_self x.data
    | cons q rest' =>
      rcases List.mem_cons.mp h with h' | h'
      · subst h'
        show containsSub ((x ++ sep ++ joinSep sep (q :: rest')).data) x.data = true
        have hd : (x ++ sep ++ joinSep sep (q :: rest')).data =
            x.data ++ (sep.data ++ (joinSep sep (q :: rest')).data) := by
          show (x.data ++ sep.data) ++ _ = _
          simp [List.append_assoc]
        rw [hd]
        exact containsSub_append_left _ _ _ (containsSub_self x.data)
      · show containsSub ((p ++ sep ++ joinSep sep (q :: rest')).data) x.data = true
        have hd : (p ++ sep ++ joinSep sep (q :: rest')).data =
            (p.data ++ sep.data) ++ (joinSep sep (q :: rest')).data := rfl
        rw [hd]
        exact containsSub_append_right _ _ _ (ih x h')

/-- Every match's `name (type, rate)` entry occurs in the ambiguity
message. -/
theorem ambiguousMsg_enumerates (name : String) (found : List Channel)
    (c : Channel) (hc : c ∈ found) :
    pyContains (ambiguousMsg name found) (fmtMatch c) = true := by
  show containsSub ((_ ++ joinSep "\n    " (found.map fmtMatch)).data)
    (fmtMatch c).data = true
  have hd : ∀ a b : String, (a ++ b).data = a.data ++ b.data := fun a b => rfl
  rw [hd]
  exact containsSub_append_right _ _ _
    (joinSep_contains _ _ _ (List.mem_map_of_mem fmtMatch hc))

theorem query_nds2_single (conn : Nds2Connection) (type_ : Option PyTy)
    (unique : Bool) (name : String) :
    query_nds2 conn [name] type_ unique =
      (do let r ← queryOneName conn type_ unique name
          Except.ok (r.1, r.2)) := by
  unfold query_nds2
  cases h : queryOneName conn type_ unique name with
  | error e => simp [List.foldlM, h, bind, Except.bind]
  | ok v => simp [List.foldlM, h, bind, Except.bind, pure, Except.pure]

/-- C6: in the batch query with `unique=true`, for a requested name that
resolves (through discovery and `from_nds2` conversion) to the match
list `found`: zero distinct resolved identities raise the not-found
error; more than one distinct identity raises the ambiguity error whose
message enumerates name, type and rate for every match; exactly one
identity resolved as several rate-variants returns only the first
variant together with a non-fatal warning. -/
theorem c6_query_nds2_unique (conn : Nds2Connection) (type_ : Option PyTy)
    (name : String) (found : List Channel)
    (hres : resolveMatches conn type_ name = .ok found) :
    ((found.map Channel.ndsname).toFinset.card = 0 →
      query_nds2 conn [name] type_ true =
        .error (.valueError (noMatchMsg name))) ∧
    ((found.map Channel.ndsname).toFinset.card > 1 →
      query_nds2 conn [name] type_ true =
        .error (.valueError (ambiguousMsg name found)) ∧
      ∀ c ∈ found, pyContains (ambiguousMsg name found) (fmtMatch c) = true) ∧
    ((found.map Channel.ndsname).toFinset.card = 1 → found.length > 1 →
      query_nds2 conn [name] type_ true =
        .ok (found.take 1, [rateWarnMsg name])) := by
  have hone : queryOneName conn type_ true name = uniqueBranch true name found := by
    unfold queryOneName
    rw [hres]
    simp [bind, Except.bind]
  refine ⟨?_, ?_, ?_⟩
  · intro hcard
    have hub : uniqueBranch true name found =
        .error (.valueError (noMatchMsg name)) := by
      unfold uniqueBranch
      rw [if_pos ⟨rfl, hcard⟩]
    rw [query_nds2_single, hone, hub]
    rfl
  · intro hcard
    have hub : uniqueBranch true name found =
        .error (.valueError (ambiguousMsg name found)) := by
      unfold uniqueBranch
      rw [if_neg (fun hc => absurd hc.2 (by omega))]
      rw [if_pos ⟨rfl, hcard⟩]
    refine ⟨?_, ?_⟩
    · rw [query_nds2_single, hone, hub]
      rfl
    · intro c hc
      exact ambiguousMsg_enumerates name found c hc
  · intro hcard hlen
    have hub : uniqueBranch true name found =
        .ok (found.take 1, [rateWarnMsg name]) := by
      unfold uniqueBranch
      rw [if_neg (fun hc => absurd hc.2 (by omega))]
      rw [if_neg (fun hc => absurd hc.2 (by omega))]
      rw [if_pos ⟨rfl, hlen⟩]
    rw [query_nds2_single, hone, hub]
    rfl

/-- The concrete connection for the C6 witness: two variants of the same
raw channel at different rates. -/
def connW : Nds2Connection :=
  ⟨fun _ _ => [⟨"H1:TEST", 16384, "V", 2, 8⟩, ⟨"H1:TEST", 4096, "V", 2, 8⟩]⟩

/-- The channel list the witness connection resolves to. -/
def foundW : List Channel :=
  [{ name := "H1:TEST", sample_rate := some 16384, unit := some "V",
     dtype := some "float32", type := some "raw", model := none, url := none,
     ifo := some "H1", system := some "TEST", subsystem := none, signal := none },
   { name := "H1:TEST", sample_rate := some 4096, unit := some "V",
     dtype := some "float32", type := some "raw", model := none, url := none,
     ifo := some "H1", system := some "TEST", subsystem := none, signal := none }]

/-- Witness for C6 at the concrete connection: one identity with two
rate variants keeps only the first and warns. -/
theorem c6_witness :
    query_nds2 connW ["H1:TEST"] none true =
      .ok (foundW.take 1, [rateWarnMsg "H1:TEST"]) :=
  (c6_query_nds2_unique connW none "H1:TEST" foundW (by rfl)).2.2
    (by decide) (by decide)

/- ------------------------------------------------------------------ -/
/- ChannelList.query_nds2_availability                                 -/
/- ------------------------------------------------------------------ -/

/-- A requested channel: a `Channel` or a bare name string. -/
inductive ChanArg where
  | str (s : String)
  | chan (c : Channel)

/-- The request token for one channel: its string form, suffixed with
`'%%%d' % rate` when a `Channel` carries a truthy sample rate
(a rate of magnitude 0 is falsy and adds no suffix). -/
def requestName : ChanArg → String
  | .str s => s
  | .chan c =>
    match c.sample_rate with
    | some r => if r ≠ 0 then c.name ++ "%" ++ toString r else c.name
    | none => c.name

/-- `names[i].split('%')[0]`: the token before any `%`. -/
def baseName (s : String) : String :=
  match splitFirst '%' s.data with
  | some (a, _) => String.mk a
  | none => s

/-- Modelled from the spec: `gwpy.segments.Segment` (not among the
provided sources) stores an ordered pair; its constructor normalizes the
endpoint order. -/
def mkSegment (a b : Int) : Int × Int := if a ≤ b then (a, b) else (b, a)

/-- Modelled from the spec: segment intersection — defined when the
segments strictly overlap, in which case it is the common part; a
disjoint (or merely touching) pair raises `ValueError`, which the
caller catches to drop the record silently. -/
def segIntersect (x y : Int × Int) : Option (Int × Int) :=
  if x.2 > y.1 ∧ x.1 < y.2 then some (max x.1 y.1, min x.2 y.2) else none

/-- `\w` of the record pattern (Python 2 byte-string semantics). -/
def isWordChar (c : Char) : Bool := c.isAlpha || c.isDigit || c = '_'

def digitsToNat (ds : List Char) : Nat :=
  ds.foldl (fun acc c => acc * 10 + (c.toNat - 48)) 0

/-- The anchored record pattern
`\A(?P<obs>[A-Z])-(?P<type>\w+):(?P<start>\d+)-(?P<end>\d+)\Z` as a
deterministic parser (no backtracking can succeed where this fails:
`\w` matches neither `:` nor `-`, and `\d` does not match `-`). -/
def matchSeg (s : String) : Option (String × Int × Int) :=
  match s.data with
  | o :: d :: rest =>
    if o.isUpper && d = '-' then
      let (ty, r1) := rest.span isWordChar
      if ty.isEmpty then none
      else
        match r1 with
        | ':' :: r2 =>
          let (d1, r3) := r2.span Char.isDigit
          if d1.isEmpty then none
          else
            match r3 with
            | '-' :: r4 =>
              let (d2, r5) := r4.span Char.isDigit
              if d2.isEmpty || !r5.isEmpty then none
              else some (String.mk ty, (digitsToNat d1 : Int), (digitsToNat d2 : Int))
            | _ => none
        | _ => none
    else none
  | _ => none

/-- The per-channel mapping from frame type to its interval list. -/
abbrev FrameDict := List (String × List (Int × Int))

/-- `segs[chan][ftype].append(seg)` / `segs[chan][ftype] = SegmentList([seg])`. -/
def fdAppend (fd : FrameDict) (ftype : String) (seg : Int × Int) : FrameDict :=
  if (fd.lookup ftype).isSome then
    fd.map (fun p => if p.1 = ftype then (p.1, p.2 ++ [seg]) else p)
  else fd ++ [(ftype, [seg])]

def lbrace : Char := Char.ofNat 123

def rbrace : Char := Char.ofNat 125

/-- `s.rstrip(chars)`. -/
def pyRStripChars (p : Char → Bool) (s : String) : String :=
  ⟨(s.data.reverse.dropWhile p).reverse⟩

/-- One whitespace-separated record token: a failed match on a non-empty
token is a fatal parse error naming the line; an empty token is skipped;
a record whose interval does not overlap the requested span is silently
dropped. -/
def parseSegToken (span : Int × Int) (line : String) (fd : FrameDict)
    (tok : List Char) : Except PyErr FrameDict :=
  match matchSeg (String.mk tok) with
  | none =>
    if tok.isEmpty then .ok fd
    else .error (.runtimeError ("Error parsing nds2_channel_source output:\n" ++ line))
  | some (ftype, a, b) =>
    match segIntersect (mkSegment a b) span with
    | none => .ok fd
    | some seg => .ok (fdAppend fd ftype seg)

def parseSegTokens (span : Int × Int) (line : String) :
    FrameDict → List (List Char) → Except PyErr FrameDict
  | fd, [] => .ok fd
  | fd, t :: ts => do
    let fd' ← parseSegToken span line fd t
    parseSegTokens span line fd' ts

/-- `line.split(' ', 1)[1].strip('{').rstrip('}').split(' ')`, record by
record; a line with no space raises `IndexError` at the `[1]`. -/
def parseLineRecords (span : Int × Int) (line : String) : Except PyErr FrameDict :=
  match splitFirst ' ' line.data with
  | none => .error .indexError
  | some (_, restChars) =>
    let body := pyStripChars (· = lbrace) (String.mk restChars)
    let body := pyRStripChars (· = rbrace) body
    parseSegTokens span line [] (splitAllChar ' ' body.data)

/-- Modelled from the spec: `SegmentList.coalesce` sorts by start
ascending and merges every interval whose start is at most the running
merged interval's end, extending that end to the larger of the two. -/
def insertSorted (x : Int × Int) : List (Int × Int) → List (Int × Int)
  | [] => [x]
  | y :: ys =>
    if x.1 < y.1 ∨ (x.1 = y.1 ∧ x.2 ≤ y.2) then x :: y :: ys
    else y :: insertSorted x ys

def sortSegs (l : List (Int × Int)) : List (Int × Int) := l.foldr insertSorted []

def coalesceRun (cur : Int × Int) : List (Int × Int) → List (Int × Int)
  | [] => [cur]
  | y :: ys =>
    if y.1 ≤ cur.2 then coalesceRun (cur.1, max cur.2 y.2) ys
    else cur :: coalesceRun y ys

def coalesceSegs (l : List (Int × Int)) : List (Int × Int) :=
  match sortSegs l with
  | [] => []
  | x :: rest => coalesceRun x rest

/-- `segs[chan].coalesce()`: coalesce every frame type's list. -/
def coalesceDict (fd : FrameDict) : FrameDict :=
  fd.map (fun p => (p.1, coalesceSegs p.2))

/-- Python dictionary key equality for the report: `Channel.__eq__`
compares `(name, sample_rate, unit, url, type, dtype)`; a string never
equals a `Channel`. -/
def chanKeyEq : ChanArg → ChanArg → Bool
  | .str a, .str b => a == b
  | .chan a, .chan b =>
    a.name == b.name && a.sample_rate == b.sample_rate && a.unit == b.unit &&
    a.url == b.url && a.type == b.type && a.dtype == b.dtype
  | _, _ => false

/-- The availability report: channel → frame type → coalesced list. -/
abbrev Report := List (ChanArg × FrameDict)

/-- `segs[chan] = ...` with Python dict assignment semantics. -/
def reportSet (rep : Report) (k : ChanArg) (v : FrameDict) : Report :=
  if rep.any (fun p => chanKeyEq p.1 k) then
    rep.map (fun p => if chanKeyEq p.1 k then (k, v) else p)
  else rep ++ [(k, v)]

/-- The line loop of `query_nds2_availability`: skip the informational
preamble; abort on the tool's error marker; on any other line, demand
that it begin with the base name of the next unconsumed requested
channel (`names[i]` raises `IndexError` when all are consumed), then
parse its records and store the coalesced result for `channels[i]`. -/
def availLoop (names : List String) (channels : List ChanArg)
    (span : Int × Int) : Nat → Report → List String → Except PyErr Report
  | _, rep, [] => .ok rep
  | i, rep, line :: rest =>
    if pyStartsWith line "Requested source list:" then
      availLoop names channels span i rep rest
    else if pyStartsWith line "Error in daq" then
      .error (.runtimeError line)
    else
      match names[i]? with
      | none => .error .indexError
      | some nm =>
        if pyStartsWith line (baseName nm) then
          match channels[i]? with
          | none => .error .indexError
          | some ch => do
            let fd ← parseLineRecords span line
            availLoop names channels span (i + 1)
              (reportSet rep ch (coalesceDict fd)) rest
        else .error (.runtimeError "Error parsing nds2_channel_source output")

/-- The captured outcome of the external tool invocation: its exit code
and its standard output, split into lines. -/
structure ToolResult where
  retcode : Int
  stdout : List String

/-- `ChannelList.query_nds2_availability`, given the external tool's
captured outcome: build the request tokens and the normalized span
(`to_gps` on an integer is the identity), abort with
`CalledProcessError` on a non-zero exit code, then parse the output
line by line. -/
def query_nds2_availability (channels : List ChanArg) (gpsStart gpsEnd : Int)
    (tool : ToolResult) : Except PyErr Report :=
  let names := channels.map requestName
  let span := mkSegment gpsStart gpsEnd
  if tool.retcode ≠ 0 then .error (.calledProcessError tool.retcode)
  else availLoop names channels span 0 [] tool.stdout

/-- C5: the availability resolver raises the fatal tool-invocation error
(returning no report) whenever the tool exits non-zero, and raises the
fatal parse error (returning no report) whenever a non-preamble,
non-error-marker line does not begin with the base name — the token
before any `%` — of the next unconsumed requested channel. -/
theorem c5_availability_errors :
    (∀ (channels : List ChanArg) (gpsStart gpsEnd : Int) (tool : ToolResult),
      tool.retcode ≠ 0 →
      query_nds2_availability channels gpsStart gpsEnd tool =
        .error (.calledProcessError tool.retcode)) ∧
    (∀ (names : List String) (channels : List ChanArg) (span : Int × Int)
      (i : Nat) (rep : Report) (line : String) (rest : List String) (nm : String),
      names[i]? = some nm →
      pyStartsWith line "Requested source list:" = false →
      pyStartsWith line "Error in daq" = false →
      pyStartsWith line (baseName nm) = false →
      availLoop names channels span i rep (line :: rest) =
        .error (.runtimeError "Error parsing nds2_channel_source output")) := by
  constructor
  · intro channels gpsStart gpsEnd tool h
    unfold query_nds2_availability
    rw [if_pos h]
  · intro names channels span i rep line rest nm hget h1 h2 h3
    unfold availLoop
    simp [h1, h2, hget, h3]

/-- Witness for C5: a non-zero exit code, and a line whose leading token
is not the expected channel's base name. -/
theorem c5_witness :
    ((1 : Int) ≠ 0 ∧
      query_nds2_availability [] 0 10 ⟨1, []⟩ =
        .error (.calledProcessError 1)) ∧
    (((["X1:A"] : List String)[0]? = some "X1:A") ∧
      availLoop ["X1:A"] [.str "X1:A"] (0, 10) 0 [] ["B1:Z"] =
        .error (.runtimeError "Error parsing nds2_channel_source output")) :=
  ⟨⟨by decide, c5_availability_errors.1 [] 0 10 ⟨1, []⟩ (by decide)⟩,
   ⟨by rfl, c5_availability_errors.2 ["X1:A"] [.str "X1:A"] (0, 10) 0 [] "B1:Z"
      [] "X1:A" (by rfl) (by rfl) (by rfl) (by rfl)⟩⟩
